import Mathlib

/-
Verification of the contact-manager core: validated fields (Name, Phone,
Birthday), Record, AddressBook, the upcoming-birthday window, the command
handlers, and the persistence round trip.  Definitions mirror the Python
source (goit-pycore-hw-08.py); exceptions are modelled with Except, console
prints as returned strings, and in-place mutation as explicit state passing.
-/

/-- A calendar date as held by Python's datetime.date: year, month, day. -/
structure PyDate where
  year : Nat
  month : Nat
  day : Nat
deriving DecidableEq, Repr

/-- Gregorian leap-year test, as datetime uses. -/
def isLeap (y : Nat) : Bool :=
  (y % 4 == 0 && y % 100 != 0) || y % 400 == 0

/-- Number of days in a month of a given year. -/
def daysInMonth (y m : Nat) : Nat :=
  if m = 2 then (if isLeap y then 29 else 28)
  else if m = 4 ∨ m = 6 ∨ m = 9 ∨ m = 11 then 30
  else 31

/-- Validity of a (year, month, day) triple for datetime.date construction:
datetime.MINYEAR = 1, datetime.MAXYEAR = 9999. -/
def validDate (y m d : Nat) : Bool :=
  decide (1 ≤ y ∧ y ≤ 9999 ∧ 1 ≤ m ∧ m ≤ 12 ∧ 1 ≤ d ∧ d ≤ daysInMonth y m)

/-- Cumulative days before month m in a non-leap year. -/
def cumDays (m : Nat) : Nat :=
  match m with
  | 1 => 0
  | 2 => 31
  | 3 => 59
  | 4 => 90
  | 5 => 120
  | 6 => 151
  | 7 => 181
  | 8 => 212
  | 9 => 243
  | 10 => 273
  | 11 => 304
  | _ => 334

/-- Proleptic-Gregorian ordinal of a date (date.toordinal). -/
def toOrdinal (dt : PyDate) : Nat :=
  let p := dt.year - 1
  365 * p + p / 4 - p / 100 + p / 400
    + cumDays dt.month + (if 2 < dt.month ∧ isLeap dt.year then 1 else 0)
    + dt.day

/-- Signed day difference (a - b).days between two dates. -/
def dateDiff (a b : PyDate) : Int :=
  (toOrdinal a : Int) - (toOrdinal b : Int)

/-- date.replace(year=y): keeps month and day, fails (ValueError) if the
result is not a valid date — e.g. Feb 29 re-anchored to a non-leap year. -/
def dateReplaceYear (dt : PyDate) (y : Nat) : Option PyDate :=
  if validDate y dt.month dt.day then some ⟨y, dt.month, dt.day⟩ else none

/-- Value of a decimal digit character, none for non-digits. -/
def digitVal (c : Char) : Option Nat :=
  if c = '0' then some 0
  else if c = '1' then some 1
  else if c = '2' then some 2
  else if c = '3' then some 3
  else if c = '4' then some 4
  else if c = '5' then some 5
  else if c = '6' then some 6
  else if c = '7' then some 7
  else if c = '8' then some 8
  else if c = '9' then some 9
  else none

/-- Decimal digit character for a value below 10. -/
def digitChar (n : Nat) : Char :=
  match n with
  | 0 => '0'
  | 1 => '1'
  | 2 => '2'
  | 3 => '3'
  | 4 => '4'
  | 5 => '5'
  | 6 => '6'
  | 7 => '7'
  | 8 => '8'
  | 9 => '9'
  | _ => '?'

/-- Decimal representation of a number in the datetime year range
(1..9999), without padding — as C strftime prints %Y on the reference
platform ("90" for year 90, not "0090"). -/
def natChars (n : Nat) : List Char :=
  if n < 10 then [digitChar n]
  else if n < 100 then [digitChar (n / 10), digitChar (n % 10)]
  else if n < 1000 then [digitChar (n / 100), digitChar (n / 10 % 10), digitChar (n % 10)]
  else [digitChar (n / 1000 % 10), digitChar (n / 100 % 10), digitChar (n / 10 % 10),
    digitChar (n % 10)]

/-- Two-digit zero-padded decimal representation (strftime %d / %m). -/
def twoDigitChars (n : Nat) : List Char :=
  [digitChar (n / 10), digitChar (n % 10)]

/-- Characters of strftime("%d.%m.%Y") applied to a date. -/
def fmtDateChars (dt : PyDate) : List Char :=
  twoDigitChars dt.day ++ '.' :: twoDigitChars dt.month ++ '.' :: natChars dt.year

/-- Birthday.__str__ : the date formatted back as day.month.year. -/
def fmtDate (dt : PyDate) : String := String.mk (fmtDateChars dt)

/-- Day field of strptime's %d over two characters:
regex 3[0-1]|[1-2]\d|0[1-9]| [1-9] — values 1..31 except "00",
plus a space-padded single digit. -/
def dayVal2 (a b : Char) : Option Nat :=
  match digitVal a, digitVal b with
  | some x, some y => if 1 ≤ 10 * x + y ∧ 10 * x + y ≤ 31 then some (10 * x + y) else none
  | none, some y => if a = ' ' ∧ 1 ≤ y then some y else none
  | _, _ => none

/-- Month field of strptime's %m over two characters:
regex 1[0-2]|0[1-9] — values 1..12 except "00". -/
def monthVal2 (a b : Char) : Option Nat :=
  match digitVal a, digitVal b with
  | some x, some y => if 1 ≤ 10 * x + y ∧ 10 * x + y ≤ 12 then some (10 * x + y) else none
  | _, _ => none

/-- One-character day or month field: regex [1-9]. -/
def val1 (a : Char) : Option Nat :=
  match digitVal a with
  | some x => if 1 ≤ x then some x else none
  | none => none

/-- Year field of strptime's %Y: exactly four decimal digits. -/
def yearVal4 (a b c d : Char) : Option Nat :=
  match digitVal a, digitVal b, digitVal c, digitVal d with
  | some w, some x, some y, some z => some (1000 * w + 100 * x + 10 * y + z)
  | _, _, _, _ => none

/-- datetime.strptime(s, "%d.%m.%Y") field extraction, lenient as Python's
regex-based parser: day and month may be one or two characters (day also
space-padded), year exactly four digits, the whole string consumed.
Returns (day, month, year). -/
def strptimeDMY (l : List Char) : Option (Nat × Nat × Nat) :=
  match l with
  | [a, b, p1, c, d, p2, e, f, g, h] =>
    if p1 = '.' ∧ p2 = '.' then
      match dayVal2 a b, monthVal2 c d, yearVal4 e f g h with
      | some dd, some mm, some yy => some (dd, mm, yy)
      | _, _, _ => none
    else none
  | [x1, x2, x3, x4, x5, x6, x7, x8, x9] =>
    if x3 = '.' ∧ x5 = '.' then
      match dayVal2 x1 x2, val1 x4, yearVal4 x6 x7 x8 x9 with
      | some dd, some mm, some yy => some (dd, mm, yy)
      | _, _, _ => none
    else if x2 = '.' ∧ x5 = '.' then
      match val1 x1, monthVal2 x3 x4, yearVal4 x6 x7 x8 x9 with
      | some dd, some mm, some yy => some (dd, mm, yy)
      | _, _, _ => none
    else none
  | [x1, x2, x3, x4, x5, x6, x7, x8] =>
    if x2 = '.' ∧ x4 = '.' then
      match val1 x1, val1 x3, yearVal4 x5 x6 x7 x8 with
      | some dd, some mm, some yy => some (dd, mm, yy)
      | _, _, _ => none
    else none
  | _ => none

/-- Birthday.__init__ : parse the string with strptime("%d.%m.%Y"); any
ValueError (format mismatch or impossible date) becomes the single
validation message. -/
def Birthday.parse (s : String) : Except String PyDate :=
  match strptimeDMY s.data with
  | some (dd, mm, yy) =>
    if validDate yy mm dd then Except.ok ⟨yy, mm, dd⟩
    else Except.error "Invalid date format. Use DD.MM.YYYY"
  | none => Except.error "Invalid date format. Use DD.MM.YYYY"

/-- Spec-side comparator for the Birthday claim: the strict DD.MM.YYYY
form the spec describes — exactly two-digit day, two-digit month,
four-digit year, denoting a real calendar date. -/
def strictFormParse : List Char → Option PyDate
  | [a, b, p1, c, d, p2, e, f, g, h] =>
    if p1 = '.' ∧ p2 = '.' then
      match digitVal a, digitVal b, digitVal c, digitVal d,
            digitVal e, digitVal f, digitVal g, digitVal h with
      | some a1, some b1, some c1, some d1, some e1, some f1, some g1, some h1 =>
        if validDate (1000 * e1 + 100 * f1 + 10 * g1 + h1) (10 * c1 + d1) (10 * a1 + b1)
        then some ⟨1000 * e1 + 100 * f1 + 10 * g1 + h1, 10 * c1 + d1, 10 * a1 + b1⟩
        else none
      | _, _, _, _, _, _, _, _ => none
    else none
  | _ => none

/-- strptime accepts the string and the extracted triple is a real date. -/
def lenientOk (s : String) : Prop :=
  ∃ dd mm yy, strptimeDMY s.data = some (dd, mm, yy) ∧ validDate yy mm dd = true

/-- Phone.__init__ validity: value.isdigit() and len(value) == 10. -/
def validPhone (s : String) : Bool :=
  decide (s.length = 10) && s.data.all Char.isDigit

/-- The ValueError message of Phone.__init__. -/
def phoneError (p : String) : String :=
  "Phone number " ++ p ++ " was not added. It must be 10 digits"

/-- One contact: validated name, ordered phone values, optional birthday.
Phone objects are represented by their string value (the only observable
state); Python allows the value to be mutated past construction. -/
structure Record where
  name : String
  phones : List String
  birthday : Option PyDate
deriving DecidableEq, Repr

/-- Record.__init__ : Name validation (length ≥ 3) then an empty record. -/
def Record.make (name : String) : Except String Record :=
  if name.length < 3 then
    Except.error ("Name '" ++ name ++ "' was not added. It must be at least 3 characters long.")
  else Except.ok ⟨name, [], none⟩

/-- Record.add_phone : validate and append; ValueError on a bad value. -/
def Record.add_phone (r : Record) (p : String) : Except String Record :=
  if validPhone p then Except.ok { r with phones := r.phones ++ [p] }
  else Except.error (phoneError p)

/-- Replace the first occurrence of old by new in a phone list. -/
def replaceFirst : List String → String → String → List String
  | [], _, _ => []
  | p :: rest, old, new =>
    if p = old then new :: rest else p :: replaceFirst rest old new

/-- Record.edit_phone : if some phone equals old, assign the new value to
the first match (matches[0].value = new_number — no validation of new);
otherwise print a not-found notice.  Returns the record and the printed
message, if any. -/
def Record.edit_phone (r : Record) (old new : String) : Record × Option String :=
  if r.phones.contains old then
    ({ r with phones := replaceFirst r.phones old new }, none)
  else (r, some ("Phone " ++ old ++ " not found"))

/-- Remove the first occurrence of a value from a phone list. -/
def removeFirst : List String → String → List String
  | [], _ => []
  | p :: rest, v => if p = v then rest else p :: removeFirst rest v

/-- Record.remove_phone : remove the first matching phone, reporting the
outcome via the printed message. -/
def Record.remove_phone (r : Record) (v : String) : Record × String :=
  if r.phones.contains v then
    ({ r with phones := removeFirst r.phones v }, "Phone " ++ v ++ " removed")
  else (r, "Phone " ++ v ++ " not found")

/-- Record.add_birthday : set-once — if a birthday is already present the
call raises; otherwise parse and store. -/
def Record.add_birthday (r : Record) (s : String) : Except String Record :=
  match r.birthday with
  | some b =>
    Except.error ("A birthday is already set for " ++ r.name ++ ". Current birthday: " ++ fmtDate b)
  | none =>
    match Birthday.parse s with
    | Except.ok d => Except.ok { r with birthday := some d }
    | Except.error e => Except.error e

/-- Record.show_birthday : formatted birthday or the not-set indicator. -/
def Record.show_birthday (r : Record) : String :=
  match r.birthday with
  | some b => fmtDate b
  | none => "No birthday set for " ++ r.name

/-- The AddressBook: the insertion-ordered key/record pairs of the
underlying dict (UserDict's data). -/
structure AddressBook where
  data : List (String × Record)
deriving DecidableEq, Repr

/-- AddressBook() with no entries. -/
def AddressBook.empty : AddressBook := ⟨[]⟩

/-- dict assignment self[k] = r: update in place if the key exists
(position kept), else append. -/
def dictSet : List (String × Record) → String → Record → List (String × Record)
  | [], k, r => [(k, r)]
  | (k1, r1) :: rest, k, r =>
    if k1 = k then (k, r) :: rest else (k1, r1) :: dictSet rest k r

/-- self[k] = r on the book. -/
def AddressBook.set (b : AddressBook) (k : String) (r : Record) : AddressBook :=
  ⟨dictSet b.data k r⟩

/-- AddressBook.add_record : key the record by its own name. -/
def AddressBook.add_record (b : AddressBook) (r : Record) : AddressBook :=
  b.set r.name r

/-- dict lookup by key. -/
def lookupName : List (String × Record) → String → Option Record
  | [], _ => none
  | (k1, r1) :: rest, k => if k1 = k then some r1 else lookupName rest k

/-- AddressBook.find : self.data.get(name). -/
def AddressBook.find (b : AddressBook) (k : String) : Option Record :=
  lookupName b.data k

/-- del self[k]: drop the entry with the key. -/
def eraseKey : List (String × Record) → String → List (String × Record)
  | [], _ => []
  | (k1, r1) :: rest, k => if k1 = k then rest else (k1, r1) :: eraseKey rest k

/-- AddressBook.delete : remove if present; the string is the printed
outcome notice. -/
def AddressBook.delete (b : AddressBook) (k : String) : AddressBook × String :=
  if (lookupName b.data k).isSome then
    (⟨eraseKey b.data k⟩, "Contact " ++ k ++ " deleted")
  else (b, "Contact " ++ k ++ " not found")

/-- The loop body of get_upcoming_birthdays over the dict values: for each
record with a birthday, re-anchor it to today's year (ValueError if that
date does not exist) and keep the record when 0 ≤ difference < days. -/
def upcomingList (today : PyDate) (days : Int) :
    List (String × Record) → Except String (List Record)
  | [] => Except.ok []
  | (_, r) :: rest =>
    match r.birthday with
    | none => upcomingList today days rest
    | some d =>
      match dateReplaceYear d today.year with
      | none => Except.error "day is out of range for month"
      | some d2 =>
        match upcomingList today days rest with
        | Except.error e => Except.error e
        | Except.ok l =>
          Except.ok (if 0 ≤ dateDiff d2 today ∧ dateDiff d2 today < days then r :: l else l)

/-- AddressBook.get_upcoming_birthdays, with today passed explicitly. -/
def AddressBook.get_upcoming_birthdays (b : AddressBook) (today : PyDate) (days : Int) :
    Except String (List Record) :=
  upcomingList today days b.data

/-- The handlers' contact-not-found reply. -/
def notFoundMsg (name : String) : String := "Contact " ++ name ++ " not found."

/-- add_contact handler under the input_error wrapper: any raised error is
returned as its message string, and mutations made before the raise stay. -/
def add_contact (args : List String) (book : AddressBook) : String × AddressBook :=
  match args with
  | name :: phone :: _ =>
    match book.find name with
    | some r =>
      if phone.length = 0 then ("Contact updated.", book)
      else
        match r.add_phone phone with
        | Except.ok r2 => ("Contact updated.", book.set name r2)
        | Except.error e => (e, book)
    | none =>
      match Record.make name with
      | Except.error e => (e, book)
      | Except.ok r =>
        let book1 := book.add_record r
        if phone.length = 0 then ("Contact added.", book1)
        else
          match r.add_phone phone with
          | Except.ok r2 => ("Contact added.", book1.set name r2)
          | Except.error e => (e, book1)
  | _ =>
    ("not enough values to unpack (expected at least 2, got " ++ toString args.length ++ ")", book)

/-- add_birthday handler under the input_error wrapper. -/
def add_birthday (args : List String) (book : AddressBook) : String × AddressBook :=
  match args with
  | name :: bstr :: _ =>
    match book.find name with
    | none => (notFoundMsg name, book)
    | some r =>
      match r.add_birthday bstr with
      | Except.ok r2 => ("Birthday added for " ++ name ++ ".", book.set name r2)
      | Except.error e => (e, book)
  | _ =>
    ("not enough values to unpack (expected at least 2, got " ++ toString args.length ++ ")", book)

/-- Modelled from the spec: the repository persists via pickle.dump /
pickle.load, whose byte format is external; the durable blob is modelled
as a structured value pickling the full object graph. -/
inductive Pkl where
  | pstr : String → Pkl
  | pnat : Nat → Pkl
  | pnone : Pkl
  | plist : List Pkl → Pkl

/-- Modelled from the spec: pickling of the Birthday's underlying date. -/
def encodeDate (d : PyDate) : Pkl :=
  Pkl.plist [Pkl.pnat d.year, Pkl.pnat d.month, Pkl.pnat d.day]

/-- Modelled from the spec: pickling of a Record and its owned fields. -/
def encodeRecord (r : Record) : Pkl :=
  Pkl.plist [Pkl.pstr r.name, Pkl.plist (r.phones.map Pkl.pstr),
    match r.birthday with
    | none => Pkl.pnone
    | some d => encodeDate d]

/-- save_data : serialize the whole book (every entry recursively). -/
def save_data (b : AddressBook) : Pkl :=
  Pkl.plist (b.data.map (fun e => Pkl.plist [Pkl.pstr e.1, encodeRecord e.2]))

/-- Modelled from the spec: unpickling of a date. -/
def decodeDate : Pkl → Option PyDate
  | Pkl.plist [Pkl.pnat y, Pkl.pnat m, Pkl.pnat d] => some ⟨y, m, d⟩
  | _ => none

/-- Modelled from the spec: unpickling of a phone list. -/
def decodePhones : List Pkl → Option (List String)
  | [] => some []
  | Pkl.pstr s :: rest =>
    match decodePhones rest with
    | some l => some (s :: l)
    | none => none
  | _ => none

/-- Modelled from the spec: unpickling of a Record. -/
def decodeRecord : Pkl → Option Record
  | Pkl.plist [Pkl.pstr n, Pkl.plist ps, bd] =>
    match decodePhones ps with
    | none => none
    | some phones =>
      match bd with
      | Pkl.pnone => some ⟨n, phones, none⟩
      | other =>
        match decodeDate other with
        | some d => some ⟨n, phones, some d⟩
        | none => none
  | _ => none

/-- Modelled from the spec: unpickling of the entry list. -/
def decodeEntries : List Pkl → Option (List (String × Record))
  | [] => some []
  | Pkl.plist [Pkl.pstr k, rp] :: rest =>
    match decodeRecord rp with
    | none => none
    | some r =>
      match decodeEntries rest with
      | none => none
      | some l => some ((k, r) :: l)
  | _ => none

/-- Modelled from the spec: unpickling of a whole AddressBook. -/
def decodeBook : Pkl → Option AddressBook
  | Pkl.plist l =>
    match decodeEntries l with
    | some entries => some ⟨entries⟩
    | none => none
  | _ => none

/-- load_data : none models a missing file (FileNotFoundError, caught, a
fresh empty book); a present blob that fails to unpickle propagates its
error uncaught. -/
def load_data (file : Option Pkl) : Except String AddressBook :=
  match file with
  | none => Except.ok AddressBook.empty
  | some blob =>
    match decodeBook blob with
    | some b => Except.ok b
    | none => Except.error "UnpicklingError"

/-- The core mutating operations reachable through the command surface. -/
inductive Op where
  | addRecord : Record → Op
  | delete : String → Op
  | addPhone : String → String → Op
  | editPhone : String → String → String → Op
  | removePhone : String → String → Op
  | addBirthday : String → String → Op

/-- Apply one core operation to the book, as the handlers do: look the
record up by name, mutate it in place on success, leave the book as it
stands when the record operation raises. -/
def applyOp (b : AddressBook) (op : Op) : AddressBook :=
  match op with
  | Op.addRecord r => b.add_record r
  | Op.delete name => (b.delete name).1
  | Op.addPhone name p =>
    match b.find name with
    | none => b
    | some r =>
      match r.add_phone p with
      | Except.ok r2 => b.set name r2
      | Except.error _ => b
  | Op.editPhone name old new =>
    match b.find name with
    | none => b
    | some r => b.set name (r.edit_phone old new).1
  | Op.removePhone name p =>
    match b.find name with
    | none => b
    | some r => b.set name (r.remove_phone p).1
  | Op.addBirthday name s =>
    match b.find name with
    | none => b
    | some r =>
      match r.add_birthday s with
      | Except.ok r2 => b.set name r2
      | Except.error _ => b

/-- Every key of the book equals the name of its record. -/
def goodKeys (b : AddressBook) : Prop :=
  ∀ p ∈ b.data, p.1 = p.2.name

/-! ### Basic dictionary lemmas -/

theorem lookupName_dictSet_self (l : List (String × Record)) (k : String) (r : Record) :
    lookupName (dictSet l k r) k = some r := by
  induction l with
  | nil => simp [dictSet, lookupName]
  | cons hd tl ih =>
    obtain ⟨k1, r1⟩ := hd
    by_cases h : k1 = k
    · simp [dictSet, h, lookupName]
    · simp [dictSet, h, lookupName, ih]

theorem mem_dictSet {l : List (String × Record)} {k : String} {r : Record}
    {p : String × Record} (h : p ∈ dictSet l k r) : p = (k, r) ∨ p ∈ l := by
  induction l with
  | nil => simpa [dictSet] using h
  | cons hd tl ih =>
    obtain ⟨k1, r1⟩ := hd
    by_cases hk : k1 = k
    · simp [dictSet, hk] at h
      rcases h with h | h
      · exact Or.inl (by simp [h])
      · exact Or.inr (List.mem_cons_of_mem _ h)
    · simp [dictSet, hk] at h
      rcases h with h | h
      · exact Or.inr (by simp [h])
      · rcases ih h with h2 | h2
        · exact Or.inl h2
        · exact Or.inr (List.mem_cons_of_mem _ h2)

theorem mem_eraseKey {l : List (String × Record)} {k : String}
    {p : String × Record} (h : p ∈ eraseKey l k) : p ∈ l := by
  induction l with
  | nil => simp [eraseKey] at h
  | cons hd tl ih =>
    obtain ⟨k1, r1⟩ := hd
    by_cases hk : k1 = k
    · simp [eraseKey, hk] at h
      exact List.mem_cons_of_mem _ h
    · simp [eraseKey, hk] at h
      rcases h with h | h
      · simp [h]
      · exact List.mem_cons_of_mem _ (ih h)

theorem lookupName_mem {l : List (String × Record)} {k : String} {r : Record}
    (h : lookupName l k = some r) : (k, r) ∈ l := by
  induction l with
  | nil => simp [lookupName] at h
  | cons hd tl ih =>
    obtain ⟨k1, r1⟩ := hd
    by_cases hk : k1 = k
    · simp [lookupName, hk] at h
      simp [hk, h]
    · simp [lookupName, hk] at h
      exact List.mem_cons_of_mem _ (ih h)

/-! ### C1 : edit_phone applies an unvalidated value -/

/-- C1 evaluation at the failing input: on a record holding the valid phone
"1234567890", edit_phone("1234567890", "12345") replaces the matched
phone's value with "12345" in place and signals no error, although
"12345" is not a valid phone (not 10 digits). -/
theorem edit_phone_skips_validation :
    Record.edit_phone ⟨"Bob", ["1234567890"], none⟩ "1234567890" "12345"
      = (⟨"Bob", ["12345"], none⟩, none)
    ∧ validPhone "12345" = false := by
  constructor
  · rfl
  · rfl

/-! ### C3 : persistence round trip -/

theorem decodePhones_map (l : List String) : decodePhones (l.map Pkl.pstr) = some l := by
  induction l with
  | nil => rfl
  | cons hd tl ih => simp [decodePhones, ih]

theorem decodeRecord_encode (r : Record) : decodeRecord (encodeRecord r) = some r := by
  obtain ⟨n, ps, bd⟩ := r
  cases bd with
  | none => simp [encodeRecord, decodeRecord, decodePhones_map]
  | some d => simp [encodeRecord, decodeRecord, decodePhones_map, encodeDate, decodeDate]

theorem decodeEntries_encode (l : List (String × Record)) :
    decodeEntries (l.map fun e => Pkl.plist [Pkl.pstr e.1, encodeRecord e.2]) = some l := by
  induction l with
  | nil => rfl
  | cons hd tl ih =>
    obtain ⟨k, r⟩ := hd
    simp [decodeEntries, decodeRecord_encode, ih]

theorem load_save (b : AddressBook) : load_data (some (save_data b)) = Except.ok b := by
  obtain ⟨l⟩ := b
  simp [load_data, save_data, decodeBook, decodeEntries_encode]

/-- C3: loading what save_data wrote yields a book equal entry for entry
to the original — same keys in the same order, and for each key the same
name, phone list and (optional) birthday. -/
theorem persistence_roundtrip (b : AddressBook) :
    load_data (some (save_data b)) = Except.ok b :=
  load_save b

/-! ### C4 : birthday is set-once -/

/-- C4: on a record whose birthday is already set, the add_birthday
handler returns the already-set error for any supplied value and leaves
the book — hence the stored birthday — unchanged. -/
theorem add_birthday_set_once (name s : String) (book : AddressBook) (r : Record)
    (b : PyDate) (hf : book.find name = some r) (hb : r.birthday = some b) :
    add_birthday [name, s] book =
      ("A birthday is already set for " ++ r.name ++ ". Current birthday: " ++ fmtDate b, book)
    ∧ (add_birthday [name, s] book).2.find name = some r := by
  constructor
  · simp [add_birthday, hf, Record.add_birthday, hb]
  · simp [add_birthday, hf, Record.add_birthday, hb]

/-- C4 at a concrete input: Ann already has birthday 15.03.1990; a second
add_birthday with 01.01.2000 fails and keeps the stored record intact. -/
theorem add_birthday_set_once_witness :
    add_birthday ["Ann", "01.01.2000"] ⟨[("Ann", ⟨"Ann", [], some ⟨1990, 3, 15⟩⟩)]⟩ =
      ("A birthday is already set for Ann. Current birthday: 15.03.1990",
        ⟨[("Ann", ⟨"Ann", [], some ⟨1990, 3, 15⟩⟩)]⟩)
    ∧ (add_birthday ["Ann", "01.01.2000"]
        ⟨[("Ann", ⟨"Ann", [], some ⟨1990, 3, 15⟩⟩)]⟩).2.find "Ann" =
        some ⟨"Ann", [], some ⟨1990, 3, 15⟩⟩ :=
  add_birthday_set_once "Ann" "01.01.2000" ⟨[("Ann", ⟨"Ann", [], some ⟨1990, 3, 15⟩⟩)]⟩
    ⟨"Ann", [], some ⟨1990, 3, 15⟩⟩ ⟨1990, 3, 15⟩ rfl rfl

/-! ### C5 : load recovery policy -/

/-- C5: load_data yields a fresh empty book exactly in the missing-file
case; a present blob that cannot be unpickled propagates the error (no
empty or partial book), and any successful load returns exactly what the
blob decodes to. -/
theorem load_data_missing_vs_corrupt :
    load_data none = Except.ok AddressBook.empty
    ∧ (∀ blob, decodeBook blob = none → load_data (some blob) = Except.error "UnpicklingError")
    ∧ (∀ blob b, load_data (some blob) = Except.ok b → decodeBook blob = some b) := by
  refine ⟨rfl, ?_, ?_⟩
  · intro blob h
    simp [load_data, h]
  · intro blob b h
    cases hd : decodeBook blob with
    | some b2 =>
      simp [load_data, hd] at h
      exact congrArg some h
    | none => simp [load_data, hd] at h

/-- C5 at concrete inputs: a missing file loads as the empty book, and the
corrupt blob Pkl.pnat 0 makes load_data propagate the unpickling error. -/
theorem load_data_missing_vs_corrupt_witness :
    load_data none = Except.ok AddressBook.empty
    ∧ load_data (some (Pkl.pnat 0)) = Except.error "UnpicklingError" :=
  ⟨load_data_missing_vs_corrupt.1, load_data_missing_vs_corrupt.2.1 (Pkl.pnat 0) rfl⟩

/-! ### C7 : deleting an absent name -/

/-- C7: when the name is not a key of the book, delete reports the
not-found notice and returns the book unchanged — same keys, same
records. -/
theorem delete_absent_unchanged (book : AddressBook) (name : String)
    (h : book.find name = none) :
    book.delete name = (book, "Contact " ++ name ++ " not found") := by
  have h2 : lookupName book.data name = none := h
  simp [AddressBook.delete, h2]

/-- C7 at a concrete input: deleting "Bob" from a book that only holds
"Ann" leaves the book as it was and reports the absence. -/
theorem delete_absent_unchanged_witness :
    AddressBook.delete ⟨[("Ann", ⟨"Ann", [], none⟩)]⟩ "Bob" =
      (⟨[("Ann", ⟨"Ann", [], none⟩)]⟩, "Contact Bob not found") :=
  delete_absent_unchanged ⟨[("Ann", ⟨"Ann", [], none⟩)]⟩ "Bob" rfl

/-! ### C9 : add_contact is not atomic on phone validation failure -/

/-- C9: for a fresh name of valid length and a non-empty invalid phone,
the add_contact handler returns the phone validation message, yet the book
now contains — and keeps — a new record for that name with no phones. -/
theorem add_contact_partial_insert (name phone : String) (book : AddressBook)
    (h3 : 3 ≤ name.length) (habs : book.find name = none)
    (hne : phone.length ≠ 0) (hinv : validPhone phone = false) :
    add_contact [name, phone] book = (phoneError phone, book.add_record ⟨name, [], none⟩)
    ∧ (add_contact [name, phone] book).2.find name = some ⟨name, [], none⟩ := by
  have hmk : Record.make name = Except.ok ⟨name, [], none⟩ := by
    simp [Record.make]
    omega
  have habs2 : lookupName book.data name = none := habs
  constructor
  · simp [add_contact, habs, hmk, hne, Record.add_phone, hinv]
  · simp [add_contact, habs, habs2, hmk, hne, Record.add_phone, hinv, AddressBook.add_record,
      AddressBook.find, AddressBook.set, lookupName_dictSet_self]

/-- C9 at a concrete input: adding "Ann" with the invalid phone "123" to an
empty book returns the validation message while the empty record for Ann
is inserted and remains. -/
theorem add_contact_partial_insert_witness :
    add_contact ["Ann", "123"] AddressBook.empty =
      (phoneError "123", AddressBook.add_record AddressBook.empty ⟨"Ann", [], none⟩)
    ∧ (add_contact ["Ann", "123"] AddressBook.empty).2.find "Ann" =
        some ⟨"Ann", [], none⟩ :=
  add_contact_partial_insert "Ann" "123" AddressBook.empty (by decide) rfl (by decide) (by decide)

/-! ### C2 : the upcoming-birthday window -/

theorem upcoming_mem (today : PyDate) (days : Int) (l : List (String × Record))
    (r : Record) : ∀ res : List Record, upcomingList today days l = Except.ok res →
    (r ∈ res ↔ (∃ k, (k, r) ∈ l) ∧ ∃ d d2, r.birthday = some d ∧
      dateReplaceYear d today.year = some d2 ∧
      0 ≤ dateDiff d2 today ∧ dateDiff d2 today < days) := by
  induction l with
  | nil =>
    intro res h
    simp [upcomingList] at h
    subst h
    simp
  | cons hd tl ih =>
    intro res h
    obtain ⟨k1, r1⟩ := hd
    cases hb : r1.birthday with
    | none =>
      simp only [upcomingList, hb] at h
      rw [ih res h]
      constructor
      · rintro ⟨⟨k, hk⟩, hw⟩
        exact ⟨⟨k, List.mem_cons_of_mem _ hk⟩, hw⟩
      · rintro ⟨⟨k, hk⟩, hw⟩
        rcases List.mem_cons.mp hk with heq | htl
        · obtain ⟨d, d2, hbd, _⟩ := hw
          have hr : r = r1 := congrArg Prod.snd heq
          rw [hr, hb] at hbd
          cases hbd
        · exact ⟨⟨k, htl⟩, hw⟩
    | some d0 =>
      cases hrep : dateReplaceYear d0 today.year with
      | none => simp [upcomingList, hb, hrep] at h
      | some d2 =>
        cases hrec : upcomingList today days tl with
        | error e => simp [upcomingList, hb, hrep, hrec] at h
        | ok l2 =>
          simp only [upcomingList, hb, hrep, hrec] at h
          by_cases hc : 0 ≤ dateDiff d2 today ∧ dateDiff d2 today < days
          · rw [if_pos hc] at h
            injection h with h
            subst h
            rw [List.mem_cons, ih l2 hrec]
            constructor
            · rintro (heq | ⟨⟨k, hk⟩, hw⟩)
              · subst heq
                exact ⟨⟨k1, List.mem_cons_self _ _⟩, ⟨d0, d2, hb, hrep, hc.1, hc.2⟩⟩
              · exact ⟨⟨k, List.mem_cons_of_mem _ hk⟩, hw⟩
            · rintro ⟨⟨k, hk⟩, hw⟩
              rcases List.mem_cons.mp hk with heq | htl
              · exact Or.inl (congrArg Prod.snd heq)
              · exact Or.inr ⟨⟨k, htl⟩, hw⟩
          · rw [if_neg hc] at h
            injection h with h
            subst h
            rw [ih l2 hrec]
            constructor
            · rintro ⟨⟨k, hk⟩, hw⟩
              exact ⟨⟨k, List.mem_cons_of_mem _ hk⟩, hw⟩
            · rintro ⟨⟨k, hk⟩, hw⟩
              rcases List.mem_cons.mp hk with heq | htl
              · exfalso
                have hr : r = r1 := congrArg Prod.snd heq
                obtain ⟨d, dd2, hbd, hrep2, hge, hlt⟩ := hw
                rw [hr, hb] at hbd
                injection hbd with hbd
                subst hbd
                rw [hrep] at hrep2
                injection hrep2 with h2
                subst h2
                exact hc ⟨hge, hlt⟩
              · exact ⟨⟨k, htl⟩, hw⟩

/-- C2: whenever get_upcoming_birthdays(7) returns a list, a record is in
it exactly when it occurs in the book, has a birthday, and the signed day
difference between that birthday re-anchored to today's year and today
lies in the half-open window [0, 7); records without a birthday are never
included. -/
theorem upcoming_birthdays_window (book : AddressBook) (today : PyDate)
    (res : List Record) (r : Record)
    (h : book.get_upcoming_birthdays today 7 = Except.ok res) :
    r ∈ res ↔ (∃ k, (k, r) ∈ book.data) ∧ ∃ d d2, r.birthday = some d ∧
      dateReplaceYear d today.year = some d2 ∧
      0 ≤ dateDiff d2 today ∧ dateDiff d2 today < 7 :=
  upcoming_mem today 7 book.data r res h

/-- C2 at a concrete input: Ann's birthday re-anchored to 2024 falls on
today (15.06.2024), and the window test confirms her membership. -/
theorem upcoming_birthdays_window_witness :
    (⟨"Ann", [], some ⟨1990, 6, 15⟩⟩ : Record) ∈
        [(⟨"Ann", [], some ⟨1990, 6, 15⟩⟩ : Record)] ↔
      (∃ k, (k, (⟨"Ann", [], some ⟨1990, 6, 15⟩⟩ : Record)) ∈
          [("Ann", (⟨"Ann", [], some ⟨1990, 6, 15⟩⟩ : Record))]) ∧
      ∃ d d2, (⟨"Ann", [], some ⟨1990, 6, 15⟩⟩ : Record).birthday = some d ∧
        dateReplaceYear d (2024 : Nat) = some d2 ∧
        0 ≤ dateDiff d2 ⟨2024, 6, 15⟩ ∧ dateDiff d2 ⟨2024, 6, 15⟩ < 7 :=
  upcoming_birthdays_window ⟨[("Ann", ⟨"Ann", [], some ⟨1990, 6, 15⟩⟩)]⟩ ⟨2024, 6, 15⟩
    [⟨"Ann", [], some ⟨1990, 6, 15⟩⟩] ⟨"Ann", [], some ⟨1990, 6, 15⟩⟩ rfl

/-! ### C10 : leap-day birthdays make the query raise in non-leap years -/

theorem upcoming_feb29_aux (today : PyDate) (days : Int) (l : List (String × Record))
    (hl : isLeap today.year = false)
    (hex : ∃ p ∈ l, ∃ d : PyDate, p.2.birthday = some d ∧ d.month = 2 ∧ d.day = 29) :
    ∃ e, upcomingList today days l = Except.error e := by
  induction l with
  | nil => simp at hex
  | cons hd tl ih =>
    obtain ⟨k1, r1⟩ := hd
    rcases hex with ⟨p, hp, d, hbd, hm, hdday⟩
    rcases List.mem_cons.mp hp with heq | htl
    · subst heq
      simp only at hbd
      have hdm : daysInMonth today.year 2 = 28 := by simp [daysInMonth, hl]
      have hrep : dateReplaceYear d today.year = none := by
        simp [dateReplaceYear, hm, hdday, validDate, hdm]
      exact ⟨"day is out of range for month", by simp [upcomingList, hbd, hrep]⟩
    · obtain ⟨e, he⟩ := ih ⟨p, htl, d, hbd, hm, hdday⟩
      cases hb1 : r1.birthday with
      | none => exact ⟨e, by simp [upcomingList, hb1, he]⟩
      | some d1 =>
        cases hrep1 : dateReplaceYear d1 today.year with
        | none => exact ⟨"day is out of range for month", by simp [upcomingList, hb1, hrep1]⟩
        | some d2 => exact ⟨e, by simp [upcomingList, hb1, hrep1, he]⟩

/-- C10: if some record's stored birthday is February 29 and today's year
is not a leap year, get_upcoming_birthdays raises (the year re-anchoring
fails) instead of returning a list. -/
theorem upcoming_feb29_error (book : AddressBook) (today : PyDate) (k : String)
    (r : Record) (d : PyDate) (hm : (k, r) ∈ book.data) (hb : r.birthday = some d)
    (hmo : d.month = 2) (hd : d.day = 29) (hl : isLeap today.year = false) :
    ∃ e, book.get_upcoming_birthdays today 7 = Except.error e :=
  upcoming_feb29_aux today 7 book.data hl ⟨(k, r), hm, d, hb, hmo, hd⟩

/-- C10 at a concrete input: Leo was born 29.02.1992; with today in 2023
(not a leap year) the query errors — the branch is reachable. -/
theorem upcoming_feb29_error_witness :
    ∃ e, AddressBook.get_upcoming_birthdays
        ⟨[("Leo", ⟨"Leo", [], some ⟨1992, 2, 29⟩⟩)]⟩ ⟨2023, 6, 1⟩ 7 = Except.error e :=
  upcoming_feb29_error ⟨[("Leo", ⟨"Leo", [], some ⟨1992, 2, 29⟩⟩)]⟩ ⟨2023, 6, 1⟩ "Leo"
    ⟨"Leo", [], some ⟨1992, 2, 29⟩⟩ ⟨1992, 2, 29⟩ (by simp) rfl rfl rfl rfl

/-! ### C8 : keys always equal record names -/

theorem goodKeys_set {b : AddressBook} {k : String} {r : Record}
    (h : goodKeys b) (hk : k = r.name) : goodKeys (b.set k r) := by
  intro p hp
  rcases mem_dictSet hp with h2 | h2
  · rw [h2]
    exact hk
  · exact h p h2

theorem goodKeys_delete {b : AddressBook} (h : goodKeys b) (k : String) :
    goodKeys (b.delete k).1 := by
  by_cases hc : (lookupName b.data k).isSome
  · simp only [AddressBook.delete, hc, if_true]
    intro p hp
    exact h p (mem_eraseKey hp)
  · simp only [AddressBook.delete, hc, if_false]
    exact h

theorem add_phone_name {r : Record} {p : String} {r2 : Record}
    (h : r.add_phone p = Except.ok r2) : r2.name = r.name := by
  unfold Record.add_phone at h
  split at h
  · injection h with h
    subst h
    rfl
  · cases h

theorem edit_phone_name (r : Record) (old new : String) :
    (r.edit_phone old new).1.name = r.name := by
  unfold Record.edit_phone
  split <;> rfl

theorem remove_phone_name (r : Record) (v : String) :
    (r.remove_phone v).1.name = r.name := by
  unfold Record.remove_phone
  split <;> rfl

theorem add_birthday_name {r : Record} {s : String} {r2 : Record}
    (h : r.add_birthday s = Except.ok r2) : r2.name = r.name := by
  unfold Record.add_birthday at h
  split at h
  · cases h
  · split at h
    · injection h with h
      subst h
      rfl
    · cases h

theorem find_name {b : AddressBook} {k : String} {r : Record}
    (hg : goodKeys b) (h : b.find k = some r) : r.name = k :=
  (hg (k, r) (lookupName_mem h)).symm

theorem applyOp_good {b : AddressBook} (h : goodKeys b) (op : Op) :
    goodKeys (applyOp b op) := by
  cases op with
  | addRecord r => exact goodKeys_set h rfl
  | delete k => exact goodKeys_delete h k
  | addPhone name p =>
    cases hf : b.find name with
    | none => simp only [applyOp, hf]; exact h
    | some r =>
      cases hap : r.add_phone p with
      | ok r2 =>
        simp only [applyOp, hf, hap]
        exact goodKeys_set h ((add_phone_name hap).trans (find_name h hf)).symm
      | error e => simp only [applyOp, hf, hap]; exact h
  | editPhone name old new =>
    simp only [applyOp]
    cases hf : b.find name with
    | none => exact h
    | some r => exact goodKeys_set h ((edit_phone_name r old new).trans (find_name h hf)).symm
  | removePhone name p =>
    simp only [applyOp]
    cases hf : b.find name with
    | none => exact h
    | some r => exact goodKeys_set h ((remove_phone_name r p).trans (find_name h hf)).symm
  | addBirthday name s =>
    cases hf : b.find name with
    | none => simp only [applyOp, hf]; exact h
    | some r =>
      cases hab : r.add_birthday s with
      | ok r2 =>
        simp only [applyOp, hf, hab]
        exact goodKeys_set h ((add_birthday_name hab).trans (find_name h hf)).symm
      | error e => simp only [applyOp, hf, hab]; exact h

theorem foldl_good : ∀ (ops : List Op) (b : AddressBook), goodKeys b →
    goodKeys (List.foldl applyOp b ops) := by
  intro ops
  induction ops with
  | nil => intro b h; exact h
  | cons op tl ih =>
    intro b h
    exact ih _ (applyOp_good h op)

/-- C8: starting from an empty book or from loading a saved book, every
sequence of core operations (addRecord, delete, addPhone, editPhone,
removePhone, addBirthday) keeps the invariant that each key equals the
name of its record. -/
theorem book_key_invariant (ops : List Op) (b0 : AddressBook)
    (h : b0 = AddressBook.empty ∨
      ∃ b, goodKeys b ∧ load_data (some (save_data b)) = Except.ok b0) :
    goodKeys (List.foldl applyOp b0 ops) := by
  have h0 : goodKeys b0 := by
    rcases h with rfl | ⟨b, hb, hl⟩
    · intro p hp
      simp [AddressBook.empty] at hp
    · rw [load_save b] at hl
      injection hl with hl
      subst hl
      exact hb
  exact foldl_good ops b0 h0

/-- C8 at a concrete input: a short operation run from the empty book
keeps all keys equal to their records' names. -/
theorem book_key_invariant_witness :
    goodKeys (List.foldl applyOp AddressBook.empty
      [Op.addRecord ⟨"Ann", [], none⟩, Op.addPhone "Ann" "1234567890",
        Op.addBirthday "Ann" "15.03.1990", Op.delete "Bob"]) :=
  book_key_invariant
    [Op.addRecord ⟨"Ann", [], none⟩, Op.addPhone "Ann" "1234567890",
      Op.addBirthday "Ann" "15.03.1990", Op.delete "Bob"]
    AddressBook.empty (Or.inl rfl)

/-! ### C6 : Birthday parsing and formatting -/

/-- C6 counterexample: "5.03.1990" is not in the strict two-digit
DD.MM.YYYY form, yet Birthday construction succeeds on it; and
"15.03.0090" is in the strict form, yet showBirthday prints "15.03.90"
(the year unpadded), not the identical input string. -/
theorem birthday_parse_claim_false :
    strictFormParse "5.03.1990".data = none
    ∧ Birthday.parse "5.03.1990" = Except.ok ⟨1990, 3, 5⟩
    ∧ strictFormParse "15.03.0090".data = some ⟨90, 3, 15⟩
    ∧ Birthday.parse "15.03.0090" = Except.ok ⟨90, 3, 15⟩
    ∧ fmtDate ⟨90, 3, 15⟩ = "15.03.90" :=
  ⟨by decide, rfl, by decide, rfl, rfl⟩

theorem digitVal_inv {c : Char} {v : Nat} (h : digitVal c = some v) :
    digitChar v = c ∧ v ≤ 9 := by
  unfold digitVal at h
  split_ifs at h <;> cases h <;> (rename_i hc; rw [hc]; exact ⟨rfl, by omega⟩)

theorem daysInMonth_le (y m : Nat) : daysInMonth y m ≤ 31 := by
  unfold daysInMonth
  split_ifs <;> omega

theorem strict_to_ok (a b c d e f g h : Char) (a1 b1 c1 d1 e1 f1 g1 h1 : Nat)
    (ha : digitVal a = some a1) (hb : digitVal b = some b1)
    (hc : digitVal c = some c1) (hd : digitVal d = some d1)
    (he : digitVal e = some e1) (hf : digitVal f = some f1)
    (hg : digitVal g = some g1) (hh : digitVal h = some h1)
    (hv : validDate (1000 * e1 + 100 * f1 + 10 * g1 + h1) (10 * c1 + d1) (10 * a1 + b1)
      = true) :
    Birthday.parse (String.mk [a, b, '.', c, d, '.', e, f, g, h]) =
      Except.ok ⟨1000 * e1 + 100 * f1 + 10 * g1 + h1, 10 * c1 + d1, 10 * a1 + b1⟩ := by
  have hv2 := hv
  simp only [validDate, decide_eq_true_eq] at hv2
  have hday : dayVal2 a b = some (10 * a1 + b1) := by
    simp only [dayVal2, ha, hb]
    rw [if_pos ⟨hv2.2.2.2.2.1, le_trans hv2.2.2.2.2.2 (daysInMonth_le _ _)⟩]
  have hmonth : monthVal2 c d = some (10 * c1 + d1) := by
    simp only [monthVal2, hc, hd]
    rw [if_pos ⟨hv2.2.2.1, hv2.2.2.2.1⟩]
  have hyr : yearVal4 e f g h = some (1000 * e1 + 100 * f1 + 10 * g1 + h1) := by
    simp only [yearVal4, he, hf, hg, hh]
  have hstep : strptimeDMY (String.mk [a, b, '.', c, d, '.', e, f, g, h]).data =
      some (10 * a1 + b1, 10 * c1 + d1, 1000 * e1 + 100 * f1 + 10 * g1 + h1) := by
    show strptimeDMY [a, b, '.', c, d, '.', e, f, g, h] = _
    simp [strptimeDMY, hday, hmonth, hyr]
  unfold Birthday.parse
  rw [hstep]
  simp [hv]

theorem strict_to_fmt (a b c d e f g h : Char) (a1 b1 c1 d1 e1 f1 g1 h1 : Nat)
    (ha : digitVal a = some a1) (hb : digitVal b = some b1)
    (hc : digitVal c = some c1) (hd : digitVal d = some d1)
    (he : digitVal e = some e1) (hf : digitVal f = some f1)
    (hg : digitVal g = some g1) (hh : digitVal h = some h1)
    (he1 : 1 ≤ e1) :
    fmtDateChars ⟨1000 * e1 + 100 * f1 + 10 * g1 + h1, 10 * c1 + d1, 10 * a1 + b1⟩ =
      [a, b, '.', c, d, '.', e, f, g, h] := by
  obtain ⟨ha2, ha9⟩ := digitVal_inv ha
  obtain ⟨hb2, hb9⟩ := digitVal_inv hb
  obtain ⟨hc2, hc9⟩ := digitVal_inv hc
  obtain ⟨hd2, hd9⟩ := digitVal_inv hd
  obtain ⟨he2, he9⟩ := digitVal_inv he
  obtain ⟨hf2, hf9⟩ := digitVal_inv hf
  obtain ⟨hg2, hg9⟩ := digitVal_inv hg
  obtain ⟨hh2, hh9⟩ := digitVal_inv hh
  have q1 : (10 * a1 + b1) / 10 = a1 := by omega
  have q2 : (10 * a1 + b1) % 10 = b1 := by omega
  have q3 : (10 * c1 + d1) / 10 = c1 := by omega
  have q4 : (10 * c1 + d1) % 10 = d1 := by omega
  have q5 : ¬(1000 * e1 + 100 * f1 + 10 * g1 + h1 < 10) := by omega
  have q6 : ¬(1000 * e1 + 100 * f1 + 10 * g1 + h1 < 100) := by omega
  have q7 : ¬(1000 * e1 + 100 * f1 + 10 * g1 + h1 < 1000) := by omega
  have q8 : (1000 * e1 + 100 * f1 + 10 * g1 + h1) / 1000 % 10 = e1 := by omega
  have q9 : (1000 * e1 + 100 * f1 + 10 * g1 + h1) / 100 % 10 = f1 := by omega
  have q10 : (1000 * e1 + 100 * f1 + 10 * g1 + h1) / 10 % 10 = g1 := by omega
  have q11 : (1000 * e1 + 100 * f1 + 10 * g1 + h1) % 10 = h1 := by omega
  simp [fmtDateChars, twoDigitChars, natChars, q1, q2, q3, q4, q5, q6, q7, q8, q9, q10, q11,
    ha2, hb2, hc2, hd2, he2, hf2, hg2, hh2]

/-- C6 amended: for every string in strict two-digit DD.MM.YYYY form
denoting a real calendar date with year at least 1000, Birthday
construction succeeds and showBirthday reproduces the identical string;
and construction fails exactly for the strings the lenient strptime parse
rejects (it also accepts one-digit and space-padded days, one-digit
months, and real dates with smaller years, whose formatting drops the
year's leading zeros). -/
theorem birthday_parse_amended :
    (∀ (s : String) (dte : PyDate), strictFormParse s.data = some dte → 1000 ≤ dte.year →
      Birthday.parse s = Except.ok dte ∧ fmtDate dte = s)
    ∧ ∀ s : String, (∃ e, Birthday.parse s = Except.error e) ↔ ¬ lenientOk s := by
  constructor
  · intro s dte hstrict hyear
    obtain ⟨l⟩ := s
    have hstrict2 : strictFormParse l = some dte := hstrict
    unfold strictFormParse at hstrict2
    split at hstrict2
    · split at hstrict2
      · split at hstrict2
        · split at hstrict2
          · rename_i a b p1 c d p2 e f g h hdots o1 o2 o3 o4 o5 o6 o7 o8
              a1 b1 c1 d1 e1 f1 g1 h1 ha hb hc hd he hf hg hh hvd
            obtain ⟨hp1, hp2⟩ := hdots
            subst hp1
            subst hp2
            injection hstrict2 with hstrict2
            subst hstrict2
            have hd9 := (digitVal_inv hf).2
            have hg9 := (digitVal_inv hg).2
            have hh9 := (digitVal_inv hh).2
            have he1 : 1 ≤ e1 := by
              simp only [PyDate.year] at hyear
              omega
            exact ⟨strict_to_ok a b c d e f g h a1 b1 c1 d1 e1 f1 g1 h1
                ha hb hc hd he hf hg hh hvd,
              congrArg String.mk (strict_to_fmt a b c d e f g h a1 b1 c1 d1 e1 f1 g1 h1
                ha hb hc hd he hf hg hh he1)⟩
          · cases hstrict2
        · cases hstrict2
      · cases hstrict2
    · cases hstrict2
  · intro s
    cases hp : strptimeDMY s.data with
    | none =>
      constructor
      · intro _
        rintro ⟨dd, mm, yy, hq, _⟩
        rw [hp] at hq
        cases hq
      · intro _
        exact ⟨"Invalid date format. Use DD.MM.YYYY", by simp [Birthday.parse, hp]⟩
    | some t =>
      obtain ⟨dd, mm, yy⟩ := t
      by_cases hv : validDate yy mm dd = true
      · constructor
        · rintro ⟨e2, he2⟩
          simp [Birthday.parse, hp, hv] at he2
        · intro hno
          exact absurd ⟨dd, mm, yy, hp, hv⟩ hno
      · have hv2 : validDate yy mm dd = false := by
          cases hvv : validDate yy mm dd
          · rfl
          · exact absurd hvv hv
        constructor
        · intro _
          rintro ⟨dd2, mm2, yy2, hq, hval⟩
          rw [hp] at hq
          injection hq with hq
          simp only [Prod.mk.injEq] at hq
          obtain ⟨hqa, hqb, hqc⟩ := hq
          subst hqa
          subst hqb
          subst hqc
          rw [hv2] at hval
          cases hval
        · intro _
          exact ⟨"Invalid date format. Use DD.MM.YYYY", by simp [Birthday.parse, hp, hv2]⟩

/-- C6 amended, at concrete inputs: "15.03.1990" (strict form, year ≥
1000) parses and formats back identically, and "99" fails exactly because
the lenient parse rejects it. -/
theorem birthday_parse_amended_witness :
    (Birthday.parse "15.03.1990" = Except.ok ⟨1990, 3, 15⟩
      ∧ fmtDate ⟨1990, 3, 15⟩ = "15.03.1990")
    ∧ ((∃ e, Birthday.parse "99" = Except.error e) ↔ ¬ lenientOk "99") :=
  ⟨birthday_parse_amended.1 "15.03.1990" ⟨1990, 3, 15⟩ (by decide) (by decide),
    birthday_parse_amended.2 "99"⟩
